import Mathlib

/-!
SpotlightPanel (src/SpotlightPanel.cpp)

A shallow embedding of the spotlight panel: the panel's slots become functions
on an explicit panel state.  What the slots reach through pointers (the
spotlight model, the monitoring widget, the list view, the stacked widget, the
toggle button, the user configuration) is a field of that state; a modal
message box is an entry appended to `messages`.

A C++ `int` is a 32-bit two's-complement integer: its value is an `Int` within
`intMin .. intMax`, and the result of each `int` operation is brought back into
that range by `wrapInt`.  The only arithmetic in the file is the icon-size
computation of updateIconSize.
-/

namespace Veyon

/-! ## Collaborators -/

/-- ComputerControlInterface::Pointer, an opaque handle naming one monitored computer. -/
abbrev ControlInterface := Nat

/-- QSize, a pair of `int`s.  Nothing in Qt clamps the components. -/
structure QSize where
  width : Int
  height : Int
deriving DecidableEq, Repr

/-- The two pages of `ui->stackedWidget`. -/
inductive Page where
  | helpPage
  | viewPage
deriving DecidableEq, Repr

/-- Modelled from the spec: UserConfig is declared in UserConfig.h, which is
not part of the sources; the panel uses its boolean "spotlight realtime"
preference through `spotlightRealtime()` and `setSpotlightRealtime()`. -/
structure UserConfig where
  spotlightRealtime : Bool
deriving DecidableEq, Repr

/-- Modelled from the spec: UserConfig::setSpotlightRealtime stores the preference. -/
def UserConfig.setSpotlightRealtime (enabled : Bool) (_c : UserConfig) : UserConfig :=
  { spotlightRealtime := enabled }

/-- Modelled from the spec: SpotlightModel (SpotlightModel.h/.cpp are not part
of the sources).  The spotlight list is an ordered sequence of entries, one
row per entry; the model also holds the icon size and the realtime-update
flag it is given through its setters. -/
structure SpotlightModel where
  controlInterfaces : List ControlInterface
  iconSize : QSize
  updateInRealtime : Bool
deriving DecidableEq, Repr

/-- Modelled from the spec: SpotlightModel::rowCount, the number of entries. -/
def SpotlightModel.rowCount (m : SpotlightModel) : Int :=
  m.controlInterfaces.length

/-- Modelled from the spec: SpotlightModel::add.  "An entry appears at most
once in the spotlight list (add/remove keyed by this handle)"; "duplicates are
the model's responsibility to reject/ignore": a handle already present is
ignored, a new one becomes a new row. -/
def SpotlightModel.add (c : ControlInterface) (m : SpotlightModel) : SpotlightModel :=
  if c ∈ m.controlInterfaces then m
  else { m with controlInterfaces := m.controlInterfaces ++ [c] }

/-- Modelled from the spec: SpotlightModel::remove, keyed by the handle: the
rows holding that handle leave the list. -/
def SpotlightModel.remove (c : ControlInterface) (m : SpotlightModel) : SpotlightModel :=
  { m with controlInterfaces := m.controlInterfaces.filter (fun x => x ≠ c) }

/-- Modelled from the spec: SpotlightModel::data for ControlInterfaceRole.  A
QModelIndex of a list model is a row number, and it is resolved against the
rows the model has at the moment of the call; a row that does not exist gives
an empty QVariant, whose `value<Pointer>()` is the null pointer (`none`). -/
def SpotlightModel.data (m : SpotlightModel) (index : Nat) : Option ControlInterface :=
  m.controlInterfaces[index]?

/-- Modelled from the spec: SpotlightModel::setIconSize, "an icon-size setter". -/
def SpotlightModel.setIconSize (size : QSize) (m : SpotlightModel) : SpotlightModel :=
  { m with iconSize := size }

/-- Modelled from the spec: SpotlightModel::setUpdateInRealtime, "a
realtime-update flag setter". -/
def SpotlightModel.setUpdateInRealtime (enabled : Bool) (m : SpotlightModel) : SpotlightModel :=
  { m with updateInRealtime := enabled }

/-- QItemSelectionModel::select(index, SelectCurrent) on a list with
`rowCount` rows: a valid index joins the selection, nothing is cleared; an
invalid index selects nothing. -/
def selectCurrent (rowCount : Nat) (index : Nat) (selection : List Nat) : List Nat :=
  if index < rowCount then
    if index ∈ selection then selection else selection ++ [index]
  else selection

/-- The selection model of a view follows its model: when the rows holding `c`
are removed, the indexes of those rows leave the selection and the indexes of
the rows below move up. -/
def selectionAfterRemove (rows : List ControlInterface) (c : ControlInterface)
    (selection : List Nat) : List Nat :=
  selection.filterMap fun i =>
    match rows[i]? with
    | some x => if x = c then none else some ((rows.take i).filter (fun y => y ≠ c)).length
    | none => none

/-- Modelled from the spec: ComputerMonitoringWidget (its header is not part
of the sources), the source list: the rows of the monitoring data model, each
with its control-interface handle, and the rows selected in its list view. -/
structure ComputerMonitoringWidget where
  computers : List ControlInterface
  selectedIndexes : List Nat
deriving DecidableEq, Repr

/-- Modelled from the spec: ComputerMonitoringWidget::selectedComputerControlInterfaces,
"the set of currently selected targets from the source list". -/
def ComputerMonitoringWidget.selectedComputerControlInterfaces
    (w : ComputerMonitoringWidget) : List ControlInterface :=
  w.selectedIndexes.filterMap fun i => w.computers[i]?

/-- The QListView of `ui->monitoringWidget`: the geometry read by
updateIconSize, its icon size and the rows selected in it. -/
structure ListView where
  width : Int
  height : Int
  spacing : Int
  fontHeight : Int
  iconSize : QSize
  selectedIndexes : List Nat
deriving DecidableEq, Repr

/-- QAbstractItemView::setIconSize stores the size; `iconSize()` reads it back. -/
def ListView.setIconSize (size : QSize) (v : ListView) : ListView :=
  { v with iconSize := size }

/-- A call the panel makes on `m_model` that can change the spotlight list. -/
inductive ModelCall where
  | add (c : ControlInterface)
  | remove (c : Option ControlInterface)
deriving DecidableEq, Repr

/-! ## The panel -/

/-- The state a SpotlightPanel works on.  `messages` lists the texts of the
QMessageBox::information dialogs shown so far, `modelCalls` the add/remove
calls made on `m_model` so far. -/
structure SpotlightPanel where
  config : UserConfig
  computerMonitoringWidget : ComputerMonitoringWidget
  model : SpotlightModel
  listView : ListView
  currentPage : Page
  realtimeViewButtonChecked : Bool
  messages : List String
  modelCalls : List ModelCall
deriving DecidableEq, Repr

/-- The text add() shows on an empty selection. -/
def addMessage : String := "Please select at least one computer to add."

/-- The text remove() shows on an empty selection. -/
def removeMessage : String := "Please select at least one computer to remove."

/-- QMessageBox::information: one modal dialog is shown and dismissed. -/
def information (text : String) (s : SpotlightPanel) : SpotlightPanel :=
  { s with messages := s.messages ++ [text] }

/-- The least value of an `int`. -/
def intMin : Int := -2147483648

/-- The greatest value of an `int`. -/
def intMax : Int := 2147483647

/-- The `int` that an operation with the mathematical result `x` yields: `x`
when it is representable, `x` reduced modulo 2^32 into the `int` range when
it is not. -/
def wrapInt (x : Int) : Int :=
  (x + 2147483648) % 4294967296 - 2147483648

/-- The value `x` is representable as an `int`. -/
abbrev inIntRange (x : Int) : Prop :=
  intMin ≤ x ∧ x ≤ intMax

/-- ExtraMargin in updateIconSize. -/
def ExtraMargin : Int := 10

/-- The list view's width, height, spacing and font line height are `int`s, and
none of the operations of updateIconSize on them overflows: `spacing * 2`,
`width - ExtraMargin` and the difference of the two, `height - ExtraMargin`,
that minus the label height, and that minus `spacing * 2`. -/
abbrev iconSizeNoOverflow (v : ListView) : Prop :=
  inIntRange v.width ∧ inIntRange v.height ∧ inIntRange v.spacing ∧ inIntRange v.fontHeight ∧
    inIntRange (v.spacing * 2) ∧
    inIntRange (v.width - ExtraMargin) ∧
    inIntRange (v.width - ExtraMargin - v.spacing * 2) ∧
    inIntRange (v.height - ExtraMargin) ∧
    inIntRange (v.height - ExtraMargin - v.fontHeight) ∧
    inIntRange (v.height - ExtraMargin - v.fontHeight - v.spacing * 2)

/-- SpotlightPanel::updateIconSize.  `w` is `(width - ExtraMargin) - (spacing * 2)`
and `h` is `((height - ExtraMargin) - labelHeight) - (spacing * 2)`, each
operation in `int`. -/
def updateIconSize (s : SpotlightPanel) : SpotlightPanel :=
  let spacing := s.listView.spacing
  let labelHeight := s.listView.fontHeight
  let w := wrapInt (wrapInt (s.listView.width - ExtraMargin) - wrapInt (spacing * 2))
  let h := wrapInt (wrapInt (wrapInt (s.listView.height - ExtraMargin) - labelHeight)
    - wrapInt (spacing * 2))
  let s1 := { s with listView := s.listView.setIconSize ⟨w, h⟩ }
  { s1 with model := s1.model.setIconSize s1.listView.iconSize }

/-- The slot connected to the model's rowsRemoved signal in the constructor. -/
def rowsRemoved (s : SpotlightPanel) : SpotlightPanel :=
  if s.model.rowCount ≤ 0 then { s with currentPage := Page.helpPage } else s

/-- The call `m_model->add( controlInterface )`. -/
def modelAdd (c : ControlInterface) (s : SpotlightPanel) : SpotlightPanel :=
  { s with model := s.model.add c, modelCalls := s.modelCalls ++ [ModelCall.add c] }

/-- The call `m_model->remove( pointer )`.  No row is keyed by the null
pointer.  When rows do leave the list, the list view's selection model
follows and the rowsRemoved signal reaches the panel's slot. -/
def modelRemove (c : Option ControlInterface) (s : SpotlightPanel) : SpotlightPanel :=
  let s1 := { s with modelCalls := s.modelCalls ++ [ModelCall.remove c] }
  match c with
  | none => s1
  | some x =>
    if x ∈ s1.model.controlInterfaces then
      rowsRemoved { s1 with
        model := s1.model.remove x,
        listView := { s1.listView with
          selectedIndexes :=
            selectionAfterRemove s1.model.controlInterfaces x s1.listView.selectedIndexes } }
    else s1

/-- SpotlightPanel::add. -/
def add (s : SpotlightPanel) : SpotlightPanel :=
  let selectedComputerControlInterfaces :=
    s.computerMonitoringWidget.selectedComputerControlInterfaces
  if selectedComputerControlInterfaces.isEmpty then
    information addMessage s
  else
    let s1 := selectedComputerControlInterfaces.foldl (fun st c => modelAdd c st) s
    if s1.currentPage ≠ Page.viewPage then
      updateIconSize { s1 with currentPage := Page.viewPage }
    else s1

/-- SpotlightPanel::remove.  `selection` is read once; each index is resolved
through `m_model->data` at the time its turn comes in the loop. -/
def remove (s : SpotlightPanel) : SpotlightPanel :=
  let selection := s.listView.selectedIndexes
  if selection.isEmpty then
    information removeMessage s
  else
    selection.foldl (fun st index => modelRemove (st.model.data index) st) s

/-- SpotlightPanel::setRealtimeView.  The realtime view button is a toggle
button: `setChecked` stores the state and emits `toggled` when the state
changes, and the constructor connects `toggled` to this slot. -/
def setRealtimeView (enabled : Bool) (s : SpotlightPanel) : SpotlightPanel :=
  let s1 := { s with model := s.model.setUpdateInRealtime enabled }
  let s2 := { s1 with config := s1.config.setSpotlightRealtime enabled }
  if s2.realtimeViewButtonChecked = enabled then s2
  else setRealtimeView enabled { s2 with realtimeViewButtonChecked := enabled }
termination_by (if s.realtimeViewButtonChecked = enabled then 0 else 1)
decreasing_by
  simp_all

/-- SpotlightPanel::addPressedItem; `midButton` is
`QGuiApplication::mouseButtons().testFlag( Qt::MidButton )`. -/
def addPressedItem (midButton : Bool) (index : Nat) (s : SpotlightPanel) : SpotlightPanel :=
  if midButton then
    add { s with
      computerMonitoringWidget := { s.computerMonitoringWidget with
        selectedIndexes :=
          selectCurrent s.computerMonitoringWidget.computers.length index
            s.computerMonitoringWidget.selectedIndexes } }
  else s

/-- SpotlightPanel::removePressedItem. -/
def removePressedItem (midButton : Bool) (index : Nat) (s : SpotlightPanel) : SpotlightPanel :=
  if midButton then
    remove { s with
      listView := { s.listView with
        selectedIndexes :=
          selectCurrent s.model.controlInterfaces.length index s.listView.selectedIndexes } }
  else s

/-- The user selects the rows `selection` in the source list and presses Add. -/
def selectAndAdd (selection : List Nat) (s : SpotlightPanel) : SpotlightPanel :=
  add { s with
    computerMonitoringWidget := { s.computerMonitoringWidget with selectedIndexes := selection } }

/-- A sequence of Add presses, one per selection. -/
def addSequence (selections : List (List Nat)) (s : SpotlightPanel) : SpotlightPanel :=
  selections.foldl (fun st selection => selectAndAdd selection st) s

/-- A panel with an empty spotlight list and nothing selected, showing the help
page, over a source list `computers` and a list view of the given geometry. -/
def examplePanel (computers : List ControlInterface) (width height spacing fontHeight : Int) :
    SpotlightPanel :=
  { config := { spotlightRealtime := false },
    computerMonitoringWidget := { computers := computers, selectedIndexes := [] },
    model := { controlInterfaces := [], iconSize := ⟨0, 0⟩, updateInRealtime := false },
    listView := { width := width, height := height, spacing := spacing,
                  fontHeight := fontHeight, iconSize := ⟨0, 0⟩, selectedIndexes := [] },
    currentPage := Page.helpPage,
    realtimeViewButtonChecked := false,
    messages := [],
    modelCalls := [] }

/-- The constructed panel after the user has selected rows 0 and 1 of a source
list of three computers. -/
def sourceSelectedPanel : SpotlightPanel :=
  { examplePanel [7, 8, 9] 300 200 2 18 with
    computerMonitoringWidget := { computers := [7, 8, 9], selectedIndexes := [0, 1] } }

/-- A list view 300 wide and 200 high with font line height 18 whose spacing
has been set to -1073741820: `spacing * 2` is the `int` -2147483640, and
subtracting it from `width - ExtraMargin` = 290 leaves the `int` range. -/
def overflowPanel : SpotlightPanel :=
  examplePanel [] 300 200 (-1073741820) 18

/-- A panel showing the view page over the spotlight list [7, 8], with both of
its rows selected in the panel's list view (rows 0 and 1, in that order). -/
def allSelectedPanel : SpotlightPanel :=
  { config := { spotlightRealtime := false },
    computerMonitoringWidget := { computers := [7, 8, 9], selectedIndexes := [] },
    model := { controlInterfaces := [7, 8], iconSize := ⟨286, 168⟩, updateInRealtime := false },
    listView := { width := 300, height := 200, spacing := 2, fontHeight := 18,
                  iconSize := ⟨286, 168⟩, selectedIndexes := [0, 1] },
    currentPage := Page.viewPage,
    realtimeViewButtonChecked := false,
    messages := [],
    modelCalls := [] }

/-! ## Supporting lemmas -/

theorem foldl_modelAdd_eq (l : List ControlInterface) (s : SpotlightPanel) :
    l.foldl (fun st c => modelAdd c st) s =
      { s with
        model := l.foldl (fun m c => SpotlightModel.add c m) s.model,
        modelCalls := s.modelCalls ++ l.map ModelCall.add } := by
  induction l generalizing s with
  | nil => simp
  | cons c l ih =>
    rw [List.foldl_cons, ih]
    simp [modelAdd]

theorem modelRemove_messages (c : Option ControlInterface) (s : SpotlightPanel) :
    (modelRemove c s).messages = s.messages := by
  unfold modelRemove rowsRemoved
  cases c with
  | none => rfl
  | some x =>
    dsimp only
    split_ifs <;> rfl

theorem foldl_modelRemove_messages (l : List Nat) (s : SpotlightPanel) :
    (l.foldl (fun st index => modelRemove (st.model.data index) st) s).messages = s.messages := by
  induction l generalizing s with
  | nil => rfl
  | cons i l ih => rw [List.foldl_cons, ih, modelRemove_messages]

theorem selectCurrent_mem (n index : Nat) (selection : List Nat) (h : index < n) :
    index ∈ selectCurrent n index selection := by
  unfold selectCurrent
  rw [if_pos h]
  split_ifs with hm
  · exact hm
  · simp

theorem foldl_add_mem (l : List ControlInterface) (m : SpotlightModel) (c : ControlInterface) :
    c ∈ (l.foldl (fun m c => SpotlightModel.add c m) m).controlInterfaces ↔
      c ∈ m.controlInterfaces ∨ c ∈ l := by
  induction l generalizing m with
  | nil => simp
  | cons x l ih =>
    rw [List.foldl_cons, ih]
    unfold SpotlightModel.add
    split_ifs with hx
    · constructor
      · rintro (h | h)
        · exact Or.inl h
        · exact Or.inr (List.mem_cons_of_mem _ h)
      · rintro (h | h)
        · exact Or.inl h
        · rcases List.mem_cons.1 h with rfl | h
          · exact Or.inl hx
          · exact Or.inr h
    · simp only [List.mem_append, List.mem_singleton, List.mem_cons]
      tauto

theorem foldl_add_nodup (l : List ControlInterface) (m : SpotlightModel)
    (h : m.controlInterfaces.Nodup) :
    (l.foldl (fun m c => SpotlightModel.add c m) m).controlInterfaces.Nodup := by
  induction l generalizing m with
  | nil => simpa using h
  | cons x l ih =>
    rw [List.foldl_cons]
    apply ih
    unfold SpotlightModel.add
    split_ifs with hx
    · exact h
    · refine List.nodup_append.2 ⟨h, List.nodup_singleton x, ?_⟩
      intro a ha hb
      rw [List.mem_singleton] at hb
      subst hb
      exact hx ha

theorem add_controlInterfaces (s : SpotlightPanel) :
    (add s).model.controlInterfaces =
      (s.computerMonitoringWidget.selectedComputerControlInterfaces.foldl
        (fun m c => SpotlightModel.add c m) s.model).controlInterfaces := by
  unfold add
  dsimp only
  split_ifs with h1 h2
  · rw [List.isEmpty_iff.1 h1]
    rfl
  · rw [foldl_modelAdd_eq]
    rfl
  · rw [foldl_modelAdd_eq]

theorem add_computerMonitoringWidget (s : SpotlightPanel) :
    (add s).computerMonitoringWidget = s.computerMonitoringWidget := by
  unfold add
  dsimp only
  split_ifs with h1 h2
  · rfl
  · rw [foldl_modelAdd_eq]
    rfl
  · rw [foldl_modelAdd_eq]

theorem addSequence_rows (selections : List (List Nat)) (s : SpotlightPanel)
    (hn : s.model.controlInterfaces.Nodup) :
    (addSequence selections s).computerMonitoringWidget.computers
        = s.computerMonitoringWidget.computers ∧
      (addSequence selections s).model.controlInterfaces.Nodup ∧
      ∀ c, c ∈ (addSequence selections s).model.controlInterfaces ↔
        c ∈ s.model.controlInterfaces ∨
          ∃ selection ∈ selections,
            c ∈ ({ s.computerMonitoringWidget with selectedIndexes := selection } :
              ComputerMonitoringWidget).selectedComputerControlInterfaces := by
  induction selections generalizing s with
  | nil => exact ⟨rfl, hn, fun c => by simp [addSequence]⟩
  | cons sel rest ih =>
    have hc : (selectAndAdd sel s).computerMonitoringWidget.computers
        = s.computerMonitoringWidget.computers := by
      unfold selectAndAdd
      rw [add_computerMonitoringWidget]
    have hr : (selectAndAdd sel s).model.controlInterfaces =
        ((({ s.computerMonitoringWidget with selectedIndexes := sel } :
            ComputerMonitoringWidget).selectedComputerControlInterfaces).foldl
          (fun m c => SpotlightModel.add c m) s.model).controlInterfaces := by
      unfold selectAndAdd
      rw [add_controlInterfaces]
    have hn1 : (selectAndAdd sel s).model.controlInterfaces.Nodup := by
      rw [hr]
      exact foldl_add_nodup _ _ hn
    obtain ⟨i1, i2, i3⟩ := ih (selectAndAdd sel s) hn1
    have e : addSequence (sel :: rest) s = addSequence rest (selectAndAdd sel s) := rfl
    rw [e]
    refine ⟨i1.trans hc, i2, fun c => ?_⟩
    rw [i3 c, hr, foldl_add_mem]
    have hw : ∀ selection,
        ({ (selectAndAdd sel s).computerMonitoringWidget with selectedIndexes := selection } :
            ComputerMonitoringWidget).selectedComputerControlInterfaces =
          ({ s.computerMonitoringWidget with selectedIndexes := selection } :
            ComputerMonitoringWidget).selectedComputerControlInterfaces := by
      intro selection
      unfold ComputerMonitoringWidget.selectedComputerControlInterfaces
      dsimp only
      rw [hc]
    simp only [hw, List.mem_cons, exists_eq_or_imp]
    tauto

theorem add_messages_of_selected (s : SpotlightPanel)
    (h : s.computerMonitoringWidget.selectedComputerControlInterfaces ≠ []) :
    (add s).messages = s.messages := by
  have h1 : s.computerMonitoringWidget.selectedComputerControlInterfaces.isEmpty = false := by
    cases hx : s.computerMonitoringWidget.selectedComputerControlInterfaces with
    | nil => exact absurd hx h
    | cons a l => rfl
  unfold add
  dsimp only
  rw [h1, foldl_modelAdd_eq]
  simp only [Bool.false_eq_true, if_false]
  split_ifs <;> rfl

theorem remove_messages_of_selected (s : SpotlightPanel)
    (h : s.listView.selectedIndexes ≠ []) :
    (remove s).messages = s.messages := by
  have h1 : s.listView.selectedIndexes.isEmpty = false := by
    cases hx : s.listView.selectedIndexes with
    | nil => exact absurd hx h
    | cons a l => rfl
  unfold remove
  dsimp only
  rw [h1]
  simp only [Bool.false_eq_true, if_false]
  exact foldl_modelRemove_messages _ _

theorem modelRemove_length_le (c : Option ControlInterface) (s : SpotlightPanel) :
    (modelRemove c s).model.controlInterfaces.length ≤ s.model.controlInterfaces.length := by
  unfold modelRemove rowsRemoved SpotlightModel.remove
  cases c with
  | none => exact le_refl _
  | some x =>
    dsimp only
    split_ifs
    · exact List.length_filter_le _ _
    · exact List.length_filter_le _ _
    · exact le_refl _

theorem modelRemove_page_of_ne_nil (c : Option ControlInterface) (s : SpotlightPanel)
    (h : (modelRemove c s).model.controlInterfaces ≠ []) :
    (modelRemove c s).currentPage = s.currentPage := by
  unfold modelRemove rowsRemoved SpotlightModel.rowCount SpotlightModel.remove at *
  cases c with
  | none => rfl
  | some x =>
    dsimp only at *
    split_ifs at * with h1 h2
    · exfalso
      apply h
      apply List.eq_nil_of_length_eq_zero
      dsimp only
      omega
    · rfl
    · rfl

theorem modelRemove_of_nil (c : Option ControlInterface) (s : SpotlightPanel)
    (h : s.model.controlInterfaces = []) :
    (modelRemove c s).model.controlInterfaces = [] ∧
      (modelRemove c s).currentPage = s.currentPage := by
  unfold modelRemove
  cases c with
  | none => exact ⟨h, rfl⟩
  | some x =>
    dsimp only
    rw [if_neg (by rw [h]; exact List.not_mem_nil x)]
    exact ⟨h, rfl⟩

theorem modelRemove_page_of_emptied (c : Option ControlInterface) (s : SpotlightPanel)
    (h0 : s.model.controlInterfaces ≠ [])
    (h1 : (modelRemove c s).model.controlInterfaces = []) :
    (modelRemove c s).currentPage = Page.helpPage := by
  unfold modelRemove rowsRemoved SpotlightModel.rowCount SpotlightModel.remove at *
  cases c with
  | none => exact absurd h1 h0
  | some x =>
    dsimp only at *
    split_ifs at * with h2 h3
    · rfl
    · exfalso
      apply h3
      dsimp only at h1
      rw [h1]
      simp
    · exact absurd h1 h0

theorem foldl_modelRemove_length_le (l : List Nat) (s : SpotlightPanel) :
    (l.foldl (fun st index => modelRemove (st.model.data index) st) s).model.controlInterfaces.length
      ≤ s.model.controlInterfaces.length := by
  induction l generalizing s with
  | nil => exact le_refl _
  | cons i l ih =>
    rw [List.foldl_cons]
    exact le_trans (ih _) (modelRemove_length_le _ _)

theorem foldl_modelRemove_page_of_ne_nil (l : List Nat) (s : SpotlightPanel)
    (h : (l.foldl (fun st index => modelRemove (st.model.data index) st) s
      ).model.controlInterfaces ≠ []) :
    (l.foldl (fun st index => modelRemove (st.model.data index) st) s).currentPage
      = s.currentPage := by
  induction l generalizing s with
  | nil => rfl
  | cons i l ih =>
    rw [List.foldl_cons] at h ⊢
    rw [ih _ h]
    apply modelRemove_page_of_ne_nil
    intro hnil
    have hle := foldl_modelRemove_length_le l (modelRemove (s.model.data i) s)
    rw [hnil] at hle
    exact h (List.eq_nil_of_length_eq_zero (Nat.le_zero.1 hle))

theorem foldl_modelRemove_of_nil (l : List Nat) (s : SpotlightPanel)
    (h : s.model.controlInterfaces = []) :
    (l.foldl (fun st index => modelRemove (st.model.data index) st) s).model.controlInterfaces = []
      ∧ (l.foldl (fun st index => modelRemove (st.model.data index) st) s).currentPage
        = s.currentPage := by
  induction l generalizing s with
  | nil => exact ⟨h, rfl⟩
  | cons i l ih =>
    rw [List.foldl_cons]
    obtain ⟨a, b⟩ := modelRemove_of_nil (s.model.data i) s h
    obtain ⟨c, d⟩ := ih _ a
    exact ⟨c, d.trans b⟩

theorem foldl_modelRemove_page_of_emptied (l : List Nat) (s : SpotlightPanel)
    (h0 : s.model.controlInterfaces ≠ [])
    (h1 : (l.foldl (fun st index => modelRemove (st.model.data index) st) s
      ).model.controlInterfaces = []) :
    (l.foldl (fun st index => modelRemove (st.model.data index) st) s).currentPage
      = Page.helpPage := by
  induction l generalizing s with
  | nil => exact absurd h1 h0
  | cons i l ih =>
    rw [List.foldl_cons] at h1 ⊢
    by_cases hs : (modelRemove (s.model.data i) s).model.controlInterfaces = []
    · rw [(foldl_modelRemove_of_nil l _ hs).2]
      exact modelRemove_page_of_emptied _ _ h0 hs
    · exact ih _ hs h1

/-- A remove() that leaves at least one entry in the spotlight list does not
change the shown page. -/
theorem remove_page_of_ne_nil (s : SpotlightPanel)
    (h : (remove s).model.controlInterfaces ≠ []) :
    (remove s).currentPage = s.currentPage := by
  unfold remove at *
  dsimp only at *
  split_ifs at * with h1
  · rfl
  · exact foldl_modelRemove_page_of_ne_nil _ _ h

/-- A remove() that empties a non-empty spotlight list leaves the help page shown. -/
theorem remove_page_of_emptied (s : SpotlightPanel)
    (h0 : s.model.controlInterfaces ≠ [])
    (h1 : (remove s).model.controlInterfaces = []) :
    (remove s).currentPage = Page.helpPage := by
  unfold remove at *
  dsimp only at *
  split_ifs at * with h2
  · exact absurd h1 h0
  · exact foldl_modelRemove_page_of_emptied _ _ h0 h1

theorem wrapInt_of_inIntRange (x : Int) (h : inIntRange x) : wrapInt x = x := by
  have h1 : intMin ≤ x := h.1
  have h2 : x ≤ intMax := h.2
  unfold intMin at h1
  unfold intMax at h2
  unfold wrapInt
  omega

theorem updateIconSize_iconSize (s : SpotlightPanel) (h : iconSizeNoOverflow s.listView) :
    (updateIconSize s).listView.iconSize =
      ⟨s.listView.width - 10 - 2 * s.listView.spacing,
       s.listView.height - 10 - s.listView.fontHeight - 2 * s.listView.spacing⟩ := by
  obtain ⟨-, -, -, -, h1, h2, h3, h4, h5, h6⟩ := h
  simp only [updateIconSize, ListView.setIconSize]
  rw [wrapInt_of_inIntRange _ h1, wrapInt_of_inIntRange _ h2, wrapInt_of_inIntRange _ h3,
    wrapInt_of_inIntRange _ h4, wrapInt_of_inIntRange _ h5, wrapInt_of_inIntRange _ h6]
  simp [ExtraMargin, mul_comm]

/-- Outside the no-overflow range the formula is not what the list view gets:
with spacing -1073741820 on a 300 x 200 view the `int` results are
(-2147483366, -2147483484), where W - 10 - 2*S is 2147483930. -/
theorem updateIconSize_overflow :
    (updateIconSize overflowPanel).listView.iconSize = ⟨-2147483366, -2147483484⟩ ∧
      overflowPanel.listView.width - 10 - 2 * overflowPanel.listView.spacing = 2147483930 := by
  decide

/-! ## The claims -/

/-- C1: when no target is selected in the source list, add() changes nothing
but the list of shown dialogs, which grows by exactly one entry (the text
asking to select a computer to add): the spotlight model, and with it the
spotlight list, is the same, and no add or remove call has been made on the
model. -/
theorem add_empty_selection (s : SpotlightPanel)
    (h : s.computerMonitoringWidget.selectedComputerControlInterfaces = []) :
    add s = { s with messages := s.messages ++ [addMessage] } ∧
      (add s).model = s.model ∧ (add s).modelCalls = s.modelCalls ∧
      (add s).messages.length = s.messages.length + 1 := by
  have e : add s = { s with messages := s.messages ++ [addMessage] } := by
    simp [add, h, information]
  rw [e]
  simp

theorem add_empty_selection_witness :
    (examplePanel [7, 8, 9] 300 200 2 18).computerMonitoringWidget.selectedComputerControlInterfaces
        = [] ∧
      (add (examplePanel [7, 8, 9] 300 200 2 18)).messages = [addMessage] :=
  ⟨rfl, by rw [(add_empty_selection (examplePanel [7, 8, 9] 300 200 2 18) rfl).1]; rfl⟩

/-- C2: when no row is selected in the panel's own list view, remove() changes
nothing but the list of shown dialogs, which grows by exactly one entry (the
text asking to select a computer to remove): the spotlight model, and with it
the spotlight list, is the same, and no add or remove call has been made on
the model. -/
theorem remove_empty_selection (s : SpotlightPanel)
    (h : s.listView.selectedIndexes = []) :
    remove s = { s with messages := s.messages ++ [removeMessage] } ∧
      (remove s).model = s.model ∧ (remove s).modelCalls = s.modelCalls ∧
      (remove s).messages.length = s.messages.length + 1 := by
  have e : remove s = { s with messages := s.messages ++ [removeMessage] } := by
    simp [remove, h, information]
  rw [e]
  simp

theorem remove_empty_selection_witness :
    (examplePanel [7, 8, 9] 300 200 2 18).listView.selectedIndexes = [] ∧
      (remove (examplePanel [7, 8, 9] 300 200 2 18)).messages = [removeMessage] :=
  ⟨rfl, by rw [(remove_empty_selection (examplePanel [7, 8, 9] 300 200 2 18) rfl).1]; rfl⟩

/-- C3: for a list view of width W, height H, spacing S and font line height
L, all `int`s on which the subtractions and the doubling of updateIconSize()
do not overflow, updateIconSize() sets the list view's icon size to
(W - 10 - 2*S, H - 10 - L - 2*S) and gives the model that same size; for
W=300, H=200, S=2, L=18 the size is (286, 168). -/
theorem updateIconSize_spec (s : SpotlightPanel) (h : iconSizeNoOverflow s.listView) :
    (updateIconSize s).listView.iconSize =
        ⟨s.listView.width - 10 - 2 * s.listView.spacing,
         s.listView.height - 10 - s.listView.fontHeight - 2 * s.listView.spacing⟩ ∧
      (updateIconSize s).model.iconSize =
        ⟨s.listView.width - 10 - 2 * s.listView.spacing,
         s.listView.height - 10 - s.listView.fontHeight - 2 * s.listView.spacing⟩ ∧
      (updateIconSize (examplePanel [] 300 200 2 18)).listView.iconSize = ⟨286, 168⟩ ∧
      (updateIconSize (examplePanel [] 300 200 2 18)).model.iconSize = ⟨286, 168⟩ := by
  refine ⟨updateIconSize_iconSize s h, ?_, by decide, by decide⟩
  have e : (updateIconSize s).model.iconSize = (updateIconSize s).listView.iconSize := rfl
  rw [e, updateIconSize_iconSize s h]

theorem updateIconSize_spec_witness :
    iconSizeNoOverflow (examplePanel [] 640 480 4 20).listView ∧
      (updateIconSize (examplePanel [] 640 480 4 20)).listView.iconSize = ⟨622, 442⟩ ∧
      (updateIconSize (examplePanel [] 640 480 4 20)).model.iconSize = ⟨622, 442⟩ :=
  ⟨by decide,
   (updateIconSize_spec (examplePanel [] 640 480 4 20) (by decide)).1,
   (updateIconSize_spec (examplePanel [] 640 480 4 20) (by decide)).2.1⟩

/-- C6: after setRealtimeView(b) the configuration's spotlight-realtime
preference, the toggle button's checked state and the model's realtime-update
flag all equal b, and the spotlight list and the shown page are what they
were. -/
theorem setRealtimeView_spec (b : Bool) (s : SpotlightPanel) :
    (setRealtimeView b s).config.spotlightRealtime = b ∧
      (setRealtimeView b s).realtimeViewButtonChecked = b ∧
      (setRealtimeView b s).model.updateInRealtime = b ∧
      (setRealtimeView b s).model.controlInterfaces = s.model.controlInterfaces ∧
      (setRealtimeView b s).currentPage = s.currentPage := by
  rw [setRealtimeView]
  dsimp only
  split_ifs with h
  · exact ⟨rfl, h, rfl, rfl, rfl⟩
  · rw [setRealtimeView]
    simp [SpotlightModel.setUpdateInRealtime, UserConfig.setSpotlightRealtime]

/-- C8: for list views of the same spacing and font line height, on which the
`int` operations of updateIconSize() do not overflow, the icon size
updateIconSize() computes is monotone in the view's dimensions: a view that is
no wider gets an icon that is no wider, a view that is no higher gets an icon
that is no higher. -/
theorem updateIconSize_monotone (s t : SpotlightPanel)
    (hos : iconSizeNoOverflow s.listView) (hot : iconSizeNoOverflow t.listView)
    (hs : s.listView.spacing = t.listView.spacing)
    (hf : s.listView.fontHeight = t.listView.fontHeight) :
    (s.listView.width ≤ t.listView.width →
        (updateIconSize s).listView.iconSize.width ≤ (updateIconSize t).listView.iconSize.width) ∧
      (s.listView.height ≤ t.listView.height →
        (updateIconSize s).listView.iconSize.height
          ≤ (updateIconSize t).listView.iconSize.height) := by
  rw [updateIconSize_iconSize s hos, updateIconSize_iconSize t hot, hs, hf]
  constructor <;> intro h <;> dsimp only <;> omega

theorem updateIconSize_monotone_witness :
    iconSizeNoOverflow (examplePanel [] 300 200 2 18).listView ∧
      iconSizeNoOverflow (examplePanel [] 640 480 2 18).listView ∧
      (updateIconSize (examplePanel [] 300 200 2 18)).listView.iconSize.width
        ≤ (updateIconSize (examplePanel [] 640 480 2 18)).listView.iconSize.width ∧
      (updateIconSize (examplePanel [] 300 200 2 18)).listView.iconSize.height
        ≤ (updateIconSize (examplePanel [] 640 480 2 18)).listView.iconSize.height :=
  ⟨by decide, by decide,
   (updateIconSize_monotone (examplePanel [] 300 200 2 18) (examplePanel [] 640 480 2 18)
      (by decide) (by decide) rfl rfl).1 (by decide),
   (updateIconSize_monotone (examplePanel [] 300 200 2 18) (examplePanel [] 640 480 2 18)
      (by decide) (by decide) rfl rfl).2 (by decide)⟩

/-- C9, as stated, fails: a list view of width 0 and height 0 with spacing 0
and font line height 0 (all non-negative, nothing overflows) gets the icon
size (-10, -10), and the model gets it too. -/
theorem updateIconSize_negative :
    0 ≤ (examplePanel [] 0 0 0 0).listView.width ∧
      0 ≤ (examplePanel [] 0 0 0 0).listView.height ∧
      0 ≤ (examplePanel [] 0 0 0 0).listView.spacing ∧
      0 ≤ (examplePanel [] 0 0 0 0).listView.fontHeight ∧
      iconSizeNoOverflow (examplePanel [] 0 0 0 0).listView ∧
      (updateIconSize (examplePanel [] 0 0 0 0)).listView.iconSize.width < 0 ∧
      (updateIconSize (examplePanel [] 0 0 0 0)).listView.iconSize.height < 0 ∧
      (updateIconSize (examplePanel [] 0 0 0 0)).listView.iconSize = ⟨-10, -10⟩ ∧
      (updateIconSize (examplePanel [] 0 0 0 0)).model.iconSize = ⟨-10, -10⟩ := by
  decide

/-- C9, amended: updateIconSize() does not clamp.  For a list view of width W,
height H, spacing S and font line height L on which its `int` operations do
not overflow, the icon size it applies to the list view and to the model is
(W - 10 - 2*S, H - 10 - L - 2*S) as computed; so the icon width is
non-negative exactly when W >= 10 + 2*S and the icon height exactly when
H >= 10 + L + 2*S. -/
theorem updateIconSize_not_clamped (s : SpotlightPanel) (h : iconSizeNoOverflow s.listView) :
    (updateIconSize s).listView.iconSize =
        ⟨s.listView.width - 10 - 2 * s.listView.spacing,
         s.listView.height - 10 - s.listView.fontHeight - 2 * s.listView.spacing⟩ ∧
      (updateIconSize s).model.iconSize =
        ⟨s.listView.width - 10 - 2 * s.listView.spacing,
         s.listView.height - 10 - s.listView.fontHeight - 2 * s.listView.spacing⟩ ∧
      (0 ≤ (updateIconSize s).listView.iconSize.width ↔
        10 + 2 * s.listView.spacing ≤ s.listView.width) ∧
      (0 ≤ (updateIconSize s).listView.iconSize.height ↔
        10 + s.listView.fontHeight + 2 * s.listView.spacing ≤ s.listView.height) ∧
      (0 ≤ (updateIconSize s).model.iconSize.width ↔
        10 + 2 * s.listView.spacing ≤ s.listView.width) ∧
      (0 ≤ (updateIconSize s).model.iconSize.height ↔
        10 + s.listView.fontHeight + 2 * s.listView.spacing ≤ s.listView.height) := by
  have e : (updateIconSize s).model.iconSize = (updateIconSize s).listView.iconSize := rfl
  rw [e, updateIconSize_iconSize s h]
  refine ⟨rfl, rfl, ?_, ?_, ?_, ?_⟩ <;> dsimp only <;> constructor <;> intro h <;> omega

theorem updateIconSize_not_clamped_witness :
    iconSizeNoOverflow (examplePanel [] 12 200 2 18).listView ∧
      (updateIconSize (examplePanel [] 12 200 2 18)).listView.iconSize = ⟨-2, 168⟩ ∧
      (updateIconSize (examplePanel [] 12 200 2 18)).model.iconSize = ⟨-2, 168⟩ :=
  ⟨by decide,
   (updateIconSize_not_clamped (examplePanel [] 12 200 2 18) (by decide)).1,
   (updateIconSize_not_clamped (examplePanel [] 12 200 2 18) (by decide)).2.1⟩

/-- C4: when the help page is shown, the spotlight list is empty and at least
one target is selected in the source list, add() shows no dialog, calls the
model's add once per selected target, leaves a spotlight list that holds
exactly the selected targets, each once, and leaves the view page shown; the
switch is followed by updateIconSize(), so the list view and the model end
with the icon size computed from the view's geometry, which is
(W - 10 - 2*S, H - 10 - L - 2*S) when the `int` operations do not overflow. -/
theorem add_from_helpPage (s : SpotlightPanel)
    (hl : s.model.controlInterfaces = [])
    (hp : s.currentPage = Page.helpPage)
    (hsel : s.computerMonitoringWidget.selectedComputerControlInterfaces ≠ []) :
    (add s).messages = s.messages ∧
      (add s).modelCalls = s.modelCalls ++
        s.computerMonitoringWidget.selectedComputerControlInterfaces.map ModelCall.add ∧
      (∀ c, c ∈ (add s).model.controlInterfaces ↔
        c ∈ s.computerMonitoringWidget.selectedComputerControlInterfaces) ∧
      (add s).model.controlInterfaces.Nodup ∧
      (add s).currentPage = Page.viewPage ∧
      add s = updateIconSize
        { s.computerMonitoringWidget.selectedComputerControlInterfaces.foldl
            (fun st c => modelAdd c st) s with currentPage := Page.viewPage } ∧
      (iconSizeNoOverflow s.listView →
        (add s).listView.iconSize =
          ⟨s.listView.width - 10 - 2 * s.listView.spacing,
           s.listView.height - 10 - s.listView.fontHeight - 2 * s.listView.spacing⟩) ∧
      (add s).model.iconSize = (add s).listView.iconSize := by
  have hrows := add_controlInterfaces s
  have e : add s = updateIconSize
      { s.computerMonitoringWidget.selectedComputerControlInterfaces.foldl
          (fun st c => modelAdd c st) s with currentPage := Page.viewPage } := by
    have h1 : s.computerMonitoringWidget.selectedComputerControlInterfaces.isEmpty = false := by
      cases hx : s.computerMonitoringWidget.selectedComputerControlInterfaces with
      | nil => exact absurd hx hsel
      | cons a l => rfl
    unfold add
    dsimp only
    rw [h1, foldl_modelAdd_eq]
    simp [hp]
  refine ⟨?_, ?_, ?_, ?_, ?_, e, ?_, ?_⟩
  · rw [e, foldl_modelAdd_eq]
    rfl
  · rw [e, foldl_modelAdd_eq]
    rfl
  · intro c
    rw [hrows, foldl_add_mem, hl]
    simp
  · rw [hrows]
    exact foldl_add_nodup _ _ (by rw [hl]; exact List.nodup_nil)
  · rw [e]
    rfl
  · intro hno
    rw [e, foldl_modelAdd_eq]
    exact updateIconSize_iconSize _ hno
  · rw [e]
    rfl

theorem add_from_helpPage_witness :
    sourceSelectedPanel.model.controlInterfaces = [] ∧
      sourceSelectedPanel.currentPage = Page.helpPage ∧
      sourceSelectedPanel.computerMonitoringWidget.selectedComputerControlInterfaces ≠ [] ∧
      iconSizeNoOverflow sourceSelectedPanel.listView ∧
      (add sourceSelectedPanel).messages = [] ∧
      (add sourceSelectedPanel).currentPage = Page.viewPage ∧
      (add sourceSelectedPanel).listView.iconSize = ⟨286, 168⟩ :=
  ⟨rfl, rfl, by decide, by decide,
   (add_from_helpPage sourceSelectedPanel rfl rfl (by decide)).1,
   (add_from_helpPage sourceSelectedPanel rfl rfl (by decide)).2.2.2.2.1,
   (add_from_helpPage sourceSelectedPanel rfl rfl (by decide)).2.2.2.2.2.2.1 (by decide)⟩

/-- C7: with a model whose add ignores a handle that is already present,
a sequence of Add presses that starts on an empty spotlight list leaves a list
whose length is the number of distinct handles that occurred in the
selections; and an add() whose selected handles are all present already
leaves the spotlight list as it is. -/
theorem addSequence_length (selections : List (List Nat)) (s : SpotlightPanel)
    (h : s.model.controlInterfaces = []) :
    (addSequence selections s).model.controlInterfaces.length =
        ((selections.map fun selection =>
          ({ s.computerMonitoringWidget with selectedIndexes := selection } :
            ComputerMonitoringWidget).selectedComputerControlInterfaces).flatten.dedup).length ∧
      ∀ t : SpotlightPanel,
        (∀ c ∈ t.computerMonitoringWidget.selectedComputerControlInterfaces,
            c ∈ t.model.controlInterfaces) →
          (add t).model.controlInterfaces = t.model.controlInterfaces := by
  constructor
  · obtain ⟨-, hnd, hmem⟩ := addSequence_rows selections s (by rw [h]; exact List.nodup_nil)
    apply List.Perm.length_eq
    rw [List.perm_ext_iff_of_nodup hnd (List.nodup_dedup _)]
    intro c
    rw [hmem c, h, List.mem_dedup, List.mem_flatten]
    simp only [List.not_mem_nil, false_or, List.mem_map]
    constructor
    · rintro ⟨sel, hs, hc⟩
      exact ⟨_, ⟨sel, hs, rfl⟩, hc⟩
    · rintro ⟨l, ⟨sel, hs, rfl⟩, hc⟩
      exact ⟨sel, hs, hc⟩
  · intro t ht
    rw [add_controlInterfaces]
    generalize t.computerMonitoringWidget.selectedComputerControlInterfaces = l at ht
    generalize t.model = m at ht
    induction l generalizing m with
    | nil => rfl
    | cons x l ih =>
      have hx : x ∈ m.controlInterfaces := ht x (List.mem_cons_self _ _)
      rw [List.foldl_cons]
      have hm : SpotlightModel.add x m = m := by
        unfold SpotlightModel.add
        rw [if_pos hx]
      rw [hm]
      exact ih m (fun c hc => ht c (List.mem_cons_of_mem _ hc))

theorem addSequence_length_witness :
    (examplePanel [7, 8, 9] 300 200 2 18).model.controlInterfaces = [] ∧
      (addSequence [[0, 1], [1, 2], [1]] (examplePanel [7, 8, 9] 300 200 2 18)
        ).model.controlInterfaces.length = 3 :=
  ⟨rfl,
   (addSequence_length [[0, 1], [1, 2], [1]] (examplePanel [7, 8, 9] 300 200 2 18) rfl).1.trans
     (by decide)⟩

/-- C5, evaluated where it fails: the panel shows the view page over the list
[7, 8] and both rows are selected, row 0 first.  remove() resolves row 0 to 7
and removes it; row 1 is resolved next, against a list that now has the single
row 0, so the model is asked to remove the null pointer.  The entry 8 stays in
the list and the view page stays shown. -/
theorem remove_all_selected_leaves_entry :
    allSelectedPanel.currentPage = Page.viewPage ∧
      allSelectedPanel.model.controlInterfaces = [7, 8] ∧
      (∀ i, i < allSelectedPanel.model.controlInterfaces.length →
        i ∈ allSelectedPanel.listView.selectedIndexes) ∧
      (remove allSelectedPanel).modelCalls
        = [ModelCall.remove (some 7), ModelCall.remove none] ∧
      (remove allSelectedPanel).model.controlInterfaces = [8] ∧
      (remove allSelectedPanel).currentPage = Page.viewPage := by
  refine ⟨rfl, rfl, ?_, by decide, by decide, by decide⟩
  intro i hi
  have h2 : i < 2 := hi
  have hm : allSelectedPanel.listView.selectedIndexes = [0, 1] := rfl
  rw [hm]
  interval_cases i <;> simp

/-- C10: with the middle button up, addPressedItem(index) and
removePressedItem(index) return the panel as it was (selections, spotlight
list, page and dialogs included).  With the middle button down,
addPressedItem(index) is add() run after the row has been selected in the
source list, and removePressedItem(index) is remove() run after the row has
been selected in the panel's list view; for an index that names a row, the
row is in the selection that add() or remove() finds, and no dialog is
shown. -/
theorem pressedItem_spec (index : Nat) (s : SpotlightPanel) :
    addPressedItem false index s = s ∧
      removePressedItem false index s = s ∧
      addPressedItem true index s =
        add { s with
          computerMonitoringWidget := { s.computerMonitoringWidget with
            selectedIndexes :=
              selectCurrent s.computerMonitoringWidget.computers.length index
                s.computerMonitoringWidget.selectedIndexes } } ∧
      removePressedItem true index s =
        remove { s with
          listView := { s.listView with
            selectedIndexes :=
              selectCurrent s.model.controlInterfaces.length index
                s.listView.selectedIndexes } } ∧
      (index < s.computerMonitoringWidget.computers.length →
        index ∈ selectCurrent s.computerMonitoringWidget.computers.length index
            s.computerMonitoringWidget.selectedIndexes ∧
          (addPressedItem true index s).messages = s.messages) ∧
      (index < s.model.controlInterfaces.length →
        index ∈ selectCurrent s.model.controlInterfaces.length index
            s.listView.selectedIndexes ∧
          (removePressedItem true index s).messages = s.messages) := by
  refine ⟨rfl, rfl, rfl, rfl, ?_, ?_⟩
  · intro h
    have hm := selectCurrent_mem _ index s.computerMonitoringWidget.selectedIndexes h
    refine ⟨hm, ?_⟩
    unfold addPressedItem
    rw [if_pos rfl, add_messages_of_selected]
    intro hnil
    have hx : s.computerMonitoringWidget.computers[index] ∈
        ({ s.computerMonitoringWidget with
            selectedIndexes :=
              selectCurrent s.computerMonitoringWidget.computers.length index
                s.computerMonitoringWidget.selectedIndexes } :
          ComputerMonitoringWidget).selectedComputerControlInterfaces := by
      unfold ComputerMonitoringWidget.selectedComputerControlInterfaces
      rw [List.mem_filterMap]
      exact ⟨index, hm, List.getElem?_eq_getElem h⟩
    rw [hnil] at hx
    exact List.not_mem_nil _ hx
  · intro h
    have hm := selectCurrent_mem _ index s.listView.selectedIndexes h
    refine ⟨hm, ?_⟩
    unfold removePressedItem
    rw [if_pos rfl, remove_messages_of_selected]
    intro hnil
    change selectCurrent s.model.controlInterfaces.length index s.listView.selectedIndexes = []
      at hnil
    rw [hnil] at hm
    exact List.not_mem_nil _ hm

theorem pressedItem_spec_witness :
    (1 < sourceSelectedPanel.computerMonitoringWidget.computers.length ∧
        (addPressedItem true 1 sourceSelectedPanel).messages = []) ∧
      (1 < allSelectedPanel.model.controlInterfaces.length ∧
        (removePressedItem true 1 allSelectedPanel).messages = []) :=
  ⟨⟨by decide, ((pressedItem_spec 1 sourceSelectedPanel).2.2.2.2.1 (by decide)).2⟩,
   ⟨by decide, ((pressedItem_spec 1 allSelectedPanel).2.2.2.2.2 (by decide)).2⟩⟩

end Veyon
